import Mathlib

/-!
Verification development for the state-diff capture layer of this repository.

The embedding follows `core/state/statedb_diff.go` (the diff tracker,
serializer types and `Submit`) and the batched sqlite-backed transaction
store (`TxDb`).  Go maps are reference values, so the tracker state carries
an explicit heap of storage maps and each `LocalObject` holds the indices of
its `originStorage` and `currentStorage` maps; `newLocalObject` copies the
index of the wrapped state object's cache map into both fields, exactly as
the Go constructor copies one map reference into both fields.

Parts of go-ethereum that the diff layer calls but that are not part of this
repository's sources (the base `StateDB`/`stateObject` engine, hashing and
hex helpers) are modelled from the spec, each marked in its doc comment.
-/

/-- Byte strings are lists of byte values. -/
abbrev Bytes := List Nat

/-- A Go map whose keys and values are 32-byte hashes, as an association list. -/
abbrev Storage := List (Nat × Nat)

/-- Lookup in an association list keyed by naturals (Go map read, hit/miss). -/
def alLookup {α : Type} : List (Nat × α) → Nat → Option α
  | [], _ => none
  | (k, v) :: rest, key => if k = key then some v else alLookup rest key

/-- Go map assignment: replace the binding if the key is present, append otherwise. -/
def alSet {α : Type} : List (Nat × α) → Nat → α → List (Nat × α)
  | [], key, val => [(key, val)]
  | (k, v) :: rest, key, val =>
    if k = key then (key, val) :: rest else (k, v) :: alSet rest key val

/-- Go map read with the zero value returned on a miss. -/
def mapRead (m : Storage) (k : Nat) : Nat := (alLookup m k).getD 0

theorem alLookup_alSet {α : Type} (l : List (Nat × α)) (a b : Nat) (v : α) :
    alLookup (alSet l a v) b = if a = b then some v else alLookup l b := by
  induction l with
  | nil =>
    by_cases h : a = b <;> simp [alSet, alLookup, h]
  | cons hd tl ih =>
    obtain ⟨k, w⟩ := hd
    by_cases hk : k = a
    · subst hk
      by_cases h : k = b <;> simp [alSet, alLookup, h]
    · by_cases h : a = b
      · subst h
        simp [alSet, alLookup, hk, ih]
      · simp only [alSet, if_neg hk, alLookup]
        by_cases hkb : k = b
        · simp [hkb, h]
        · simp [hkb, ih, h]

theorem alLookup_alSet_self {α : Type} (l : List (Nat × α)) (a : Nat) (v : α) :
    alLookup (alSet l a v) a = some v := by
  simp [alLookup_alSet]

theorem alLookup_alSet_ne {α : Type} (l : List (Nat × α)) (a b : Nat) (v : α)
    (h : a ≠ b) : alLookup (alSet l a v) b = alLookup l b := by
  simp [alLookup_alSet, h]

/-- Account data as carried by the base engine and copied into diff records;
the balance is a nullable arbitrary-precision integer, as a Go `*big.Int`. -/
structure Account where
  nonce : Nat
  balance : Option Int
  codeHash : Bytes
deriving DecidableEq

/-- Modelled from the spec: the slice of a base-engine `stateObject` that the
diff layer reads and writes.  `storageId` is the heap index of the object's
committed-value cache map (its `originStorage` field); `dirtyStorage` holds
pending writes and `committedStorage` the backing trie values. -/
structure StateObject where
  data : Account
  code : Bytes
  suicided : Bool
  storageId : Nat
  dirtyStorage : Storage
  committedStorage : Storage
deriving DecidableEq

/-- A diff record: the per-address entry of the tracker's working set.  The
two storage fields are heap indices because the Go fields are map references. -/
structure LocalObject where
  code : Bytes
  originAccount : Account
  currentAccount : Account
  originStorageId : Nat
  currentStorageId : Nat
deriving DecidableEq

/-- Constructor of diff records: copies the object's data into both account
snapshots and the object's cache-map reference into both storage fields. -/
def newLocalObject (obj : StateObject) : LocalObject :=
  ⟨obj.code, obj.data, obj.data, obj.storageId, obj.storageId⟩

/-- The tracker state: the heap of storage maps, the base engine's objects,
and the nullable working set `LocalObject` (a Go map that can be nil). -/
structure DiffState where
  heap : List Storage
  objects : List (Nat × StateObject)
  localObject : Option (List (Nat × LocalObject))
deriving DecidableEq

/-- Read a storage map out of the heap (empty when the index is unused). -/
def heapGet (h : List Storage) (i : Nat) : Storage := (h.get? i).getD []

/-- Write one key of the heap map at index `i`. -/
def heapWrite (h : List Storage) (i k v : Nat) : List Storage :=
  h.set i (alSet (heapGet h i) k v)

/-- Read the working-set record of an address (nil map reads miss). -/
def getLocal (s : DiffState) (a : Nat) : Option LocalObject :=
  alLookup (s.localObject.getD []) a

/-- Store a record in the working set. -/
def putLocal (s : DiffState) (a : Nat) (r : LocalObject) : DiffState :=
  { s with localObject := some (alSet (s.localObject.getD []) a r) }

/-- The first-touch pattern shared by every accessor: create the record from
the current state object unless one is already present. -/
def ensureLocal (s : DiffState) (a : Nat) (obj : StateObject) : DiffState :=
  match getLocal s a with
  | some _ => s
  | none => putLocal s a (newLocalObject obj)

/-- Modelled from the spec: `StateDB.getStateObject`, the base engine's
account lookup. -/
def getStateObject (s : DiffState) (a : Nat) : Option StateObject :=
  alLookup s.objects a

/-- Modelled from the spec: the digest of empty code. -/
def emptyCodeHash : Bytes := []

/-- Modelled from the spec: stands for the keccak-256 digest of a byte
string; no claim depends on digest values. -/
def keccak256Hash (c : Bytes) : Bytes := 0 :: c

/-- Modelled from the spec: update a base object in place through its
pointer. -/
def updObj (s : DiffState) (a : Nat) (f : StateObject → StateObject) : DiffState :=
  match alLookup s.objects a with
  | some o => { s with objects := alSet s.objects a (f o) }
  | none => s

/-- Modelled from the spec: `StateDB.createObject` makes a fresh empty
account with a newly allocated storage cache map and replaces any previous
object, returning the new object and the previous one. -/
def createObject (s : DiffState) (a : Nat) :
    DiffState × StateObject × Option StateObject :=
  let prev := alLookup s.objects a
  let fresh : StateObject :=
    ⟨⟨0, some 0, emptyCodeHash⟩, [], false, s.heap.length, [], []⟩
  ({ s with heap := s.heap ++ [[]], objects := alSet s.objects a fresh },
   fresh, prev)

/-- `DiffStateDb.Exist`: report existence, recording a first-touch snapshot. -/
def existOp (s : DiffState) (a : Nat) : DiffState × Bool :=
  match getStateObject s a with
  | some obj => (ensureLocal s a obj, true)
  | none => (s, false)

/-- `DiffStateDb.Empty`: the diff side effect only records the first touch. -/
def emptyOp (s : DiffState) (a : Nat) : DiffState :=
  match getStateObject s a with
  | some obj => ensureLocal s a obj
  | none => s

/-- `DiffStateDb.GetOrNewStateObject`: fetch or create the base object, then
record a first-touch snapshot of it. -/
def getOrNewStateObject (s : DiffState) (a : Nat) : DiffState × StateObject :=
  match getStateObject s a with
  | some obj => (ensureLocal s a obj, obj)
  | none =>
    let c := createObject s a
    (ensureLocal c.1 a c.2.1, c.2.1)

/-- `DiffStateDb.CreateAccount`: create the base object, carry the previous
balance forward, and overwrite the working-set record with a fresh one. -/
def createAccount (s : DiffState) (a : Nat) : DiffState :=
  let c := createObject s a
  match c.2.2 with
  | some p =>
    let f1 : StateObject :=
      { c.2.1 with data := { c.2.1.data with balance := p.data.balance } }
    let s2 := { c.1 with objects := alSet c.1.objects a f1 }
    putLocal s2 a (newLocalObject f1)
  | none => putLocal c.1 a (newLocalObject c.2.1)

/-- `DiffStateDb.AddBalance`: ensure the record, back-fill a nil origin
balance, set the current balance to the pre-mutation balance plus the
amount, then delegate the mutation to the base object. -/
def addBalance (s : DiffState) (a : Nat) (amt : Int) : DiffState :=
  let p := getOrNewStateObject s a
  let s1 := p.1
  let st := p.2
  let s2 :=
    match getLocal s1 a with
    | none =>
      let r := newLocalObject st
      putLocal s1 a
        { r with currentAccount :=
            { r.currentAccount with balance := st.data.balance.map (fun b => b + amt) } }
    | some r =>
      let r1 :=
        if r.originAccount.balance = none then
          { r with originAccount := { r.originAccount with balance := st.data.balance } }
        else r
      putLocal s1 a
        { r1 with currentAccount :=
            { r1.currentAccount with balance := st.data.balance.map (fun b => b + amt) } }
  updObj s2 a fun o =>
    { o with data := { o.data with balance := o.data.balance.map (fun b => b + amt) } }

/-- `DiffStateDb.SubBalance`: the mirror image of `addBalance`. -/
def subBalance (s : DiffState) (a : Nat) (amt : Int) : DiffState :=
  let p := getOrNewStateObject s a
  let s1 := p.1
  let st := p.2
  let s2 :=
    match getLocal s1 a with
    | none =>
      let r := newLocalObject st
      putLocal s1 a
        { r with currentAccount :=
            { r.currentAccount with balance := st.data.balance.map (fun b => b - amt) } }
    | some r =>
      let r1 :=
        if r.originAccount.balance = none then
          { r with originAccount := { r.originAccount with balance := st.data.balance } }
        else r
      putLocal s1 a
        { r1 with currentAccount :=
            { r1.currentAccount with balance := st.data.balance.map (fun b => b - amt) } }
  updObj s2 a fun o =>
    { o with data := { o.data with balance := o.data.balance.map (fun b => b - amt) } }

/-- `DiffStateDb.GetBalance`: record the first touch and return the balance
(`common.Big0` when the account does not exist). -/
def getBalanceOp (s : DiffState) (a : Nat) : DiffState × Option Int :=
  match getStateObject s a with
  | some obj => (ensureLocal s a obj, obj.data.balance)
  | none => (s, some 0)

/-- `DiffStateDb.GetNonce`: record the first touch only. -/
def getNonceOp (s : DiffState) (a : Nat) : DiffState :=
  match getStateObject s a with
  | some obj => ensureLocal s a obj
  | none => s

/-- `DiffStateDb.SetNonce`: ensure the record, set the current nonce, then
delegate to the base object. -/
def setNonce (s : DiffState) (a n : Nat) : DiffState :=
  let p := getOrNewStateObject s a
  let s1 := p.1
  let st := p.2
  let s2 :=
    match getLocal s1 a with
    | none =>
      let r := newLocalObject st
      putLocal s1 a { r with currentAccount := { r.currentAccount with nonce := n } }
    | some r =>
      putLocal s1 a { r with currentAccount := { r.currentAccount with nonce := n } }
  updObj s2 a fun o => { o with data := { o.data with nonce := n } }

/-- `DiffStateDb.GetCodeHash`: record the first touch only. -/
def getCodeHashOp (s : DiffState) (a : Nat) : DiffState :=
  match getStateObject s a with
  | some obj => ensureLocal s a obj
  | none => s

/-- `DiffStateDb.GetCode`: on first touch take a snapshot; otherwise refresh
the record's code from the base object. -/
def getCodeOp (s : DiffState) (a : Nat) : DiffState :=
  match getStateObject s a with
  | some obj =>
    match getLocal s a with
    | none => putLocal s a (newLocalObject obj)
    | some r => putLocal s a { r with code := obj.code }
  | none => s

/-- `DiffStateDb.SetCode`: ensure the record, store the new code in an
existing record, then delegate to the base object. -/
def setCode (s : DiffState) (a : Nat) (c : Bytes) : DiffState :=
  let p := getOrNewStateObject s a
  let s1 := p.1
  let st := p.2
  let s2 :=
    match getLocal s1 a with
    | none => putLocal s1 a (newLocalObject st)
    | some r => putLocal s1 a { r with code := c }
  updObj s2 a fun o =>
    { o with code := c, data := { o.data with codeHash := keccak256Hash c } }

/-- `DiffStateDb.GetCodeSize`: record the first touch only. -/
def getCodeSizeOp (s : DiffState) (a : Nat) : DiffState :=
  match getStateObject s a with
  | some obj => ensureLocal s a obj
  | none => s

/-- `DiffStateDb.GetCommittedState`: record the first touch only; the read
itself comes from the base object's committed storage. -/
def getCommittedStateOp (s : DiffState) (a k : Nat) : DiffState :=
  match getStateObject s a with
  | some obj => ensureLocal s a obj
  | none => s

/-- `DiffStateDb.GetState`: record the first touch only; the diff layer does
not copy the read value into the record's storage maps. -/
def getStateOp (s : DiffState) (a k : Nat) : DiffState :=
  match getStateObject s a with
  | some obj => ensureLocal s a obj
  | none => s

/-- `DiffStateDb.StorageTrie`: records the first touch before copying the
trie. -/
def storageTrieOp (s : DiffState) (a : Nat) : DiffState :=
  match getStateObject s a with
  | some obj => ensureLocal s a obj
  | none => s

/-- `DiffStateDb.SetState`: ensure the record via `GetOrNewStateObject`; if
somehow absent, insert a fresh record, writing the looked-up cache value
(zero on a miss, through the shadowed variable) under the key when the key
is new; if present, insert the written value into `originStorage` when the
key is new and always overwrite `currentStorage`; finally delegate the write
to the base object, which keeps it in its dirty overlay. -/
def setState (s : DiffState) (a k v : Nat) : DiffState :=
  let p := getOrNewStateObject s a
  let s1 := p.1
  let st := p.2
  let s2 :=
    match getLocal s1 a with
    | none =>
      let r := newLocalObject st
      let m := heapGet s1.heap r.originStorageId
      match alLookup m k with
      | some _ => putLocal s1 a r
      | none =>
        let value := (alLookup m k).getD 0
        let s1a := { s1 with heap := heapWrite s1.heap r.originStorageId k value }
        let s1b := { s1a with heap := heapWrite s1a.heap r.currentStorageId k value }
        putLocal s1b a r
    | some r =>
      let s2a :=
        match alLookup (heapGet s1.heap r.originStorageId) k with
        | none => { s1 with heap := heapWrite s1.heap r.originStorageId k v }
        | some _ => s1
      { s2a with heap := heapWrite s2a.heap r.currentStorageId k v }
  updObj s2 a fun o => { o with dirtyStorage := alSet o.dirtyStorage k v }

/-- `DiffStateDb.Suicide`: mark the base object suicided with a zero
balance; a pre-existing record gets its current balance zeroed, while the
record built in the other branch is dropped without being stored. -/
def suicide (s : DiffState) (a : Nat) : DiffState × Bool :=
  match getStateObject s a with
  | none => (s, false)
  | some _ =>
    let s1 := updObj s a fun o =>
      { o with suicided := true, data := { o.data with balance := some 0 } }
    match getLocal s1 a with
    | none => (s1, true)
    | some r =>
      (putLocal s1 a
        { r with currentAccount := { r.currentAccount with balance := some 0 } }, true)

/-- `DiffStateDb.Prepare`: reset the working set to a fresh empty map. -/
def prepareOp (s : DiffState) : DiffState :=
  { s with localObject := some [] }

/-- Modelled from the spec: one hexadecimal digit. -/
def hexDigit (n : Nat) : Char :=
  if n < 10 then Char.ofNat (48 + n) else Char.ofNat (87 + n)

/-- Modelled from the spec: `common.Bytes2Hex`, two lowercase digits per byte. -/
def bytes2Hex (b : Bytes) : String :=
  b.foldl (fun acc x => acc.push (hexDigit (x / 16 % 16)) |>.push (hexDigit (x % 16))) ""

/-- Modelled from the spec: `common.Hash.Hex`, a 0x-prefixed hex rendering. -/
def hashHex (n : Nat) : String :=
  "0x" ++ String.mk (Nat.toDigits 16 n)

/-- Modelled from the spec: `common.Address.Hex`, a 0x-prefixed hex
rendering of the address. -/
def addrHex (a : Nat) : String :=
  "0x" ++ String.mk (Nat.toDigits 16 a)

/-- Modelled from the spec: `(*big.Int).String`, decimal digits for a real
value and the nil-pointer rendering otherwise. -/
def balanceString : Option Int → String
  | some b => toString b
  | none => "<nil>"

/-- One serialized storage entry, as the `storage` struct of the source. -/
structure StorageKV where
  key : String
  value : String
deriving DecidableEq

/-- The `AccountStore` struct of the source. -/
structure AccountStore where
  nonce : Nat
  balance : String
  codeHash : String
deriving DecidableEq

/-- The `stateObjectStore` struct of the source: one serialized diff record. -/
structure StateObjectStore where
  address : String
  code : String
  originAccount : AccountStore
  currentAccount : AccountStore
  originStorage : List StorageKV
  currentStorage : List StorageKV
deriving DecidableEq

/-- Account serialization as performed inline by `Submit`. -/
def accountStoreOf (acc : Account) : AccountStore :=
  ⟨acc.nonce, balanceString acc.balance, bytes2Hex acc.codeHash⟩

/-- Storage-map serialization as performed inline by `Submit`: the slice is
made with the map's length of zero-value entries and the real entries are
then appended to it. -/
def encodeStorageList (m : Storage) : List StorageKV :=
  m.foldl (fun acc kv => acc ++ [⟨hashHex kv.1, hashHex kv.2⟩])
    (List.replicate m.length ⟨"", ""⟩)

/-- One record of the transcript, as built by the loop body of `Submit`. -/
def encodeRecord (h : List Storage) (a : Nat) (r : LocalObject) : StateObjectStore :=
  ⟨addrHex a, bytes2Hex r.code, accountStoreOf r.originAccount,
   accountStoreOf r.currentAccount,
   encodeStorageList (heapGet h r.originStorageId),
   encodeStorageList (heapGet h r.currentStorageId)⟩

/-- The record list of the transcript `Submit` builds, none when the working
set is nil. -/
def submitRecords (s : DiffState) : Option (List StateObjectStore) :=
  s.localObject.map fun l => l.map fun p => encodeRecord s.heap p.1 p.2

/-- `DiffStateDb.Submit`: a nil working set returns immediately; otherwise
the transcript is built and handed to the store (`ins` is the outcome of
`InsertTx`, none when no store is configured), any failure is only logged,
and the working set is replaced by a fresh empty map.  The returned strings
are the warnings logged on the way out. -/
def submit (s : DiffState) (ins : Option Bool) : DiffState × List String :=
  match s.localObject with
  | none => (s, [])
  | some _ =>
    let logs :=
      match ins with
      | some true => []
      | some false => ["cannot InsertTx"]
      | none => ["Ignore tx"]
    ({ s with localObject := some [] }, logs)

/-- Structured values of the marshalled transcript, mirroring what
`json.Marshal` produces for the source's tagged structs. -/
inductive JVal where
  | s (v : String)
  | n (v : Nat)
  | b (v : Bool)
  | o (fields : List (String × JVal))
  | a (items : List JVal)

/-- Marshalled form of `AccountStore`, with the source's json tags. -/
def accountJson (acc : AccountStore) : List (String × JVal) :=
  [("nonce", JVal.n acc.nonce), ("balance", JVal.s acc.balance),
   ("codeHash", JVal.s acc.codeHash)]

/-- Marshalled form of one `storage` entry, with the source's json tags. -/
def kvJson (kv : StorageKV) : JVal :=
  JVal.o [("key", JVal.s kv.key), ("value", JVal.s kv.value)]

/-- Marshalled form of `stateObjectStore`, with the source's json tags in
declaration order. -/
def recordJson (r : StateObjectStore) : List (String × JVal) :=
  [("address", JVal.s r.address), ("code", JVal.s r.code),
   ("originAccount", JVal.o (accountJson r.originAccount)),
   ("currentAccount", JVal.o (accountJson r.currentAccount)),
   ("originStorage", JVal.a (r.originStorage.map kvJson)),
   ("currentStorage", JVal.a (r.currentStorage.map kvJson))]

/-- The outcome of one call into the sql layer, modelled from the spec: the
underlying engine either succeeds or fails at each primitive. -/
structure SqlOut where
  execOk : Bool
  beginOk : Bool
  prepareOk : Bool
  commitOk : Bool
deriving DecidableEq

/-- An oracle under which every sql primitive succeeds. -/
def okOut : SqlOut := ⟨true, true, true, true⟩

/-- The `TxDb` store state: the configured batch size, the pending call
counter, generation counters standing for the transaction and prepared
statement handles, and the number of successful commits. -/
structure TxDb where
  cache : Nat
  numCalls : Nat
  txGen : Nat
  stmtGen : Nat
  commits : Nat
deriving DecidableEq

/-- `TxDb.resetTx`: zero the counter, then begin a new transaction and
prepare the insert statement, stopping at the first failure. -/
def resetTx (o : SqlOut) (s : TxDb) : TxDb × Option String :=
  let s1 := { s with numCalls := 0 }
  if o.beginOk then
    let s2 := { s1 with txGen := s1.txGen + 1 }
    if o.prepareOk then ({ s2 with stmtGen := s2.txGen }, none)
    else (s2, some "prepare error")
  else (s1, some "begin error")

/-- `TxDb.ForceCommit`: commit the open transaction, propagating a commit
failure unchanged, then reset. -/
def forceCommit (o : SqlOut) (s : TxDb) : TxDb × Option String :=
  if o.commitOk then resetTx o { s with commits := s.commits + 1 }
  else (s, some "commit error")

/-- `TxDb.InsertTx`: execute the insert, bump the counter, and force a
commit when the counter reaches the configured batch size. -/
def insertTx (o : SqlOut) (s : TxDb) : TxDb × Option String :=
  if o.execOk then
    let s1 := { s with numCalls := s.numCalls + 1 }
    if s1.cache ≤ s1.numCalls then forceCommit o s1 else (s1, none)
  else (s, some "exec error")

/-- `NewTxDb`: open the database, bootstrap the schema, set the batch size
to 256 and initialize the first transaction; any failure yields no store. -/
def newTxDb (o : SqlOut) : Option TxDb :=
  if o.execOk then
    let r := resetTx o ⟨256, 0, 0, 0, 0⟩
    match r.2 with
    | none => some r.1
    | some _ => none
  else none

/-- Repeated `InsertTx` under one oracle: `runInserts o n s` is the store
after `n` further inserts. -/
def runInserts (o : SqlOut) : Nat → TxDb → TxDb
  | 0, s => s
  | n + 1, s => (insertTx o (runInserts o n s)).1

/-- One tracker call, covering every accessor of the diff layer. -/
inductive Op where
  | exist (a : Nat)
  | empty (a : Nat)
  | createAccount (a : Nat)
  | subBalance (a : Nat) (amt : Int)
  | addBalance (a : Nat) (amt : Int)
  | getBalance (a : Nat)
  | getNonce (a : Nat)
  | setNonce (a n : Nat)
  | getCodeHash (a : Nat)
  | getCode (a : Nat)
  | setCode (a : Nat) (c : Bytes)
  | getCodeSize (a : Nat)
  | getCommittedState (a k : Nat)
  | getState (a k : Nat)
  | storageTrie (a : Nat)
  | setState (a k v : Nat)
  | suicide (a : Nat)
  | prepare
  | submit (ins : Option Bool)
deriving DecidableEq

/-- The state effect of one tracker call. -/
def step (s : DiffState) : Op → DiffState
  | .exist a => (existOp s a).1
  | .empty a => emptyOp s a
  | .createAccount a => createAccount s a
  | .subBalance a amt => subBalance s a amt
  | .addBalance a amt => addBalance s a amt
  | .getBalance a => (getBalanceOp s a).1
  | .getNonce a => getNonceOp s a
  | .setNonce a n => setNonce s a n
  | .getCodeHash a => getCodeHashOp s a
  | .getCode a => getCodeOp s a
  | .setCode a c => setCode s a c
  | .getCodeSize a => getCodeSizeOp s a
  | .getCommittedState a k => getCommittedStateOp s a k
  | .getState a k => getStateOp s a k
  | .storageTrie a => storageTrieOp s a
  | .setState a k v => setState s a k v
  | .suicide a => (suicide s a).1
  | .prepare => prepareOp s
  | .submit ins => (submit s ins).1

/-- A sequence of tracker calls. -/
def run (s : DiffState) : List Op → DiffState
  | [] => s
  | op :: rest => run (step s op) rest

/-- The tracker as built by `NewWithTxDb`: a fresh empty working set over
the caller's base state. -/
def initState (objs : List (Nat × StateObject)) (h : List Storage) : DiffState :=
  ⟨h, objs, some []⟩

@[simp]
theorem putLocal_heap (s : DiffState) (a : Nat) (r : LocalObject) :
    (putLocal s a r).heap = s.heap := rfl

@[simp]
theorem putLocal_objects (s : DiffState) (a : Nat) (r : LocalObject) :
    (putLocal s a r).objects = s.objects := rfl

@[simp]
theorem getLocal_putLocal_self (s : DiffState) (a : Nat) (r : LocalObject) :
    getLocal (putLocal s a r) a = some r := by
  simp [getLocal, putLocal, alLookup_alSet]

theorem getLocal_putLocal (s : DiffState) (a b : Nat) (r : LocalObject) :
    getLocal (putLocal s a r) b = if a = b then some r else getLocal s b := by
  simp [getLocal, putLocal, alLookup_alSet]

@[simp]
theorem updObj_localObject (s : DiffState) (a : Nat) (f : StateObject → StateObject) :
    (updObj s a f).localObject = s.localObject := by
  unfold updObj
  cases alLookup s.objects a <;> rfl

@[simp]
theorem updObj_heap (s : DiffState) (a : Nat) (f : StateObject → StateObject) :
    (updObj s a f).heap = s.heap := by
  unfold updObj
  cases alLookup s.objects a <;> rfl

theorem getLocal_updObj (s : DiffState) (a b : Nat) (f : StateObject → StateObject) :
    getLocal (updObj s a f) b = getLocal s b := by
  simp [getLocal]

theorem getStateObject_putLocal (s : DiffState) (a b : Nat) (r : LocalObject) :
    getStateObject (putLocal s a r) b = getStateObject s b := rfl

theorem getStateObject_updObj_self (s : DiffState) (a : Nat)
    (f : StateObject → StateObject) (o : StateObject)
    (h : getStateObject s a = some o) :
    getStateObject (updObj s a f) a = some (f o) := by
  unfold getStateObject at h ⊢
  unfold updObj
  rw [h]
  simp [alLookup_alSet]

theorem heapGet_heapWrite_self (h : List Storage) (i k v : Nat)
    (hi : i < h.length) :
    heapGet (heapWrite h i k v) i = alSet (heapGet h i) k v := by
  simp [heapGet, heapWrite, List.getElem?_set_self, hi]

theorem heapWrite_length (h : List Storage) (i k v : Nat) :
    (heapWrite h i k v).length = h.length := by
  simp [heapWrite]

theorem foldl_append_map {α β : Type} (f : α → β) (m : List α) :
    ∀ init : List β,
      m.foldl (fun acc x => acc ++ [f x]) init = init ++ m.map f := by
  induction m with
  | nil => intro init; simp
  | cons hd tl ih => intro init; simp [List.foldl_cons, ih]

theorem encodeStorageList_eq (m : Storage) :
    encodeStorageList m =
      List.replicate m.length ⟨"", ""⟩ ++
        m.map (fun kv => ⟨hashHex kv.1, hashHex kv.2⟩) := by
  simp [encodeStorageList, foldl_append_map]

/-- C10: every storage map serialized by `Submit` yields a list of exactly
twice the map's size, whose first half is zero-valued `{key: "", value: ""}`
entries (the slice is made at the map's length and then appended to), so a
non-empty storage map never serializes to a list of only real entries. -/
theorem c10_storage_serialization :
    ∀ m : Storage,
      (encodeStorageList m).length = 2 * m.length
      ∧ (encodeStorageList m).take m.length = List.replicate m.length ⟨"", ""⟩
      ∧ (encodeStorageList m).drop m.length
          = m.map (fun kv => ⟨hashHex kv.1, hashHex kv.2⟩)
      ∧ ∀ (h : List Storage) (a : Nat) (r : LocalObject),
          (encodeRecord h a r).originStorage
              = encodeStorageList (heapGet h r.originStorageId)
          ∧ (encodeRecord h a r).currentStorage
              = encodeStorageList (heapGet h r.currentStorageId) := by
  intro m
  refine ⟨?_, ?_, ?_, fun h a r => ⟨rfl, rfl⟩⟩
  · rw [encodeStorageList_eq]
    simp [two_mul]
  · rw [encodeStorageList_eq]
    have := List.take_left (List.replicate m.length (⟨"", ""⟩ : StorageKV))
      (m.map fun kv => ⟨hashHex kv.1, hashHex kv.2⟩)
    simpa using this
  · rw [encodeStorageList_eq]
    have := List.drop_left (List.replicate m.length (⟨"", ""⟩ : StorageKV))
      (m.map fun kv => ⟨hashHex kv.1, hashHex kv.2⟩)
    simpa using this

theorem runInserts_lt (c : Nat) :
    ∀ n, n < c → runInserts okOut n ⟨c, 0, 0, 0, 0⟩ = ⟨c, n, 0, 0, 0⟩ := by
  intro n
  induction n with
  | zero => intro _; rfl
  | succ m ih =>
    intro hlt
    have hrec := ih (Nat.lt_of_succ_lt hlt)
    have hle : ¬ c ≤ m + 1 := Nat.not_le.mpr hlt
    simp only [runInserts]
    rw [hrec]
    simp [insertTx, okOut, hle]

/-- C6: with all sql calls succeeding, the call counter increments on each
insert and no auto-commit happens below the threshold; at exactly the
threshold the store force-commits once and the pending count resets to zero;
`NewTxDb` configures the default threshold 256. -/
theorem c6_insert_threshold :
    ∀ c : Nat, 0 < c →
      (∀ n, n < c →
        (runInserts okOut n ⟨c, 0, 0, 0, 0⟩).numCalls = n
        ∧ (runInserts okOut n ⟨c, 0, 0, 0, 0⟩).commits = 0)
      ∧ (runInserts okOut c ⟨c, 0, 0, 0, 0⟩).numCalls = 0
      ∧ (runInserts okOut c ⟨c, 0, 0, 0, 0⟩).commits = 1
      ∧ ∃ t, newTxDb okOut = some t ∧ t.cache = 256 := by
  intro c hc
  match c, hc with
  | m + 1, _ =>
    have hrun : runInserts okOut (m + 1) ⟨m + 1, 0, 0, 0, 0⟩ = ⟨m + 1, 0, 1, 1, 1⟩ := by
      have hm := runInserts_lt (m + 1) m (Nat.lt_succ_self m)
      simp only [runInserts]
      rw [hm]
      simp [insertTx, forceCommit, resetTx, okOut]
    refine ⟨fun n hn => by rw [runInserts_lt (m + 1) n hn]; exact ⟨rfl, rfl⟩, ?_, ?_, ?_⟩
    · rw [hrun]
    · rw [hrun]
    · exact ⟨⟨256, 0, 1, 1, 0⟩, rfl, rfl⟩

/-- Witness for C6 at batch size 2: one insert leaves one pending call and
no commit; the second insert commits and resets the counter. -/
theorem c6_insert_threshold_witness :
    ((runInserts okOut 1 ⟨2, 0, 0, 0, 0⟩).numCalls = 1
      ∧ (runInserts okOut 1 ⟨2, 0, 0, 0, 0⟩).commits = 0)
    ∧ (runInserts okOut 2 ⟨2, 0, 0, 0, 0⟩).numCalls = 0
    ∧ (runInserts okOut 2 ⟨2, 0, 0, 0, 0⟩).commits = 1 :=
  ⟨(c6_insert_threshold 2 (by decide)).1 1 (by decide),
   (c6_insert_threshold 2 (by decide)).2.1,
   (c6_insert_threshold 2 (by decide)).2.2.1⟩

/-- Counterexample to C7: with the commit succeeding but the new Begin
failing, `ForceCommit` propagates an error while the pending counter is
already reset to zero and the transaction handle is still the old one — the
store is left half-updated, not with its old state and not fully advanced. -/
theorem c7_counterexample :
    (forceCommit ⟨true, false, true, true⟩ ⟨256, 5, 3, 3, 0⟩).2.isSome = true
    ∧ (forceCommit ⟨true, false, true, true⟩ ⟨256, 5, 3, 3, 0⟩).1
        ≠ (⟨256, 5, 3, 3, 0⟩ : TxDb)
    ∧ (forceCommit ⟨true, false, true, true⟩ ⟨256, 5, 3, 3, 0⟩).1.numCalls = 0
    ∧ (forceCommit ⟨true, false, true, true⟩ ⟨256, 5, 3, 3, 0⟩).1.txGen = 3
    ∧ (forceCommit ⟨true, false, true, true⟩ ⟨256, 5, 3, 3, 0⟩).1.stmtGen = 3 := by
  refine ⟨rfl, ?_, rfl, rfl, rfl⟩
  decide

/-- C7 (amended): when the commit itself fails, `ForceCommit` propagates the
error and leaves the counter and both handles untouched; but when the commit
succeeds and the subsequent Begin fails, the error is propagated with the
counter already reset to zero while the handles remain the old ones. -/
theorem c7_forceCommit_error_paths :
    ∀ (s : TxDb) (o : SqlOut),
      (o.commitOk = false → forceCommit o s = (s, some "commit error"))
      ∧ (o.commitOk = true → o.beginOk = false →
          forceCommit o s
            = ({ s with numCalls := 0, commits := s.commits + 1 }, some "begin error")) := by
  intro s o
  constructor
  · intro h
    simp [forceCommit, h]
  · intro h1 h2
    simp [forceCommit, resetTx, h1, h2]

/-- Witness for C7's amended statement on a concrete store and oracle. -/
theorem c7_forceCommit_error_paths_witness :
    forceCommit ⟨false, true, true, false⟩ ⟨8, 4, 2, 2, 1⟩
        = (⟨8, 4, 2, 2, 1⟩, some "commit error")
    ∧ forceCommit ⟨true, false, true, true⟩ ⟨8, 4, 2, 2, 1⟩
        = (⟨8, 0, 2, 2, 2⟩, some "begin error") :=
  ⟨(c7_forceCommit_error_paths ⟨8, 4, 2, 2, 1⟩ ⟨false, true, true, false⟩).1 rfl,
   (c7_forceCommit_error_paths ⟨8, 4, 2, 2, 1⟩ ⟨true, false, true, true⟩).2 rfl rfl⟩

/-- A concrete base object used to exhibit the serialized record schema. -/
def c5Obj : StateObject := ⟨⟨1, some 9, [171]⟩, [96, 128], false, 0, [], []⟩

/-- A concrete tracker state with one touched address. -/
def c5State : DiffState := ⟨[[(2, 3)]], [(4, c5Obj)], some [(4, newLocalObject c5Obj)]⟩

/-- The one record of `c5State`'s transcript. -/
def c5Rec : StateObjectStore := encodeRecord c5State.heap 4 (newLocalObject c5Obj)

/-- Counterexample to C5: the transcript record carries a single `code`
field and no `originCode`, `currentCode` or `deleted` fields. -/
theorem c5_counterexample :
    submitRecords c5State = some [c5Rec]
    ∧ "originCode" ∉ (recordJson c5Rec).map Prod.fst
    ∧ "currentCode" ∉ (recordJson c5Rec).map Prod.fst
    ∧ "deleted" ∉ (recordJson c5Rec).map Prod.fst := by
  refine ⟨rfl, ?_, ?_, ?_⟩ <;> decide

/-- C5 (amended): `Submit` encodes each record with exactly the fields
address (hex), one code field (hex), origin and current account as
`{nonce, balance as decimal string, codeHash as hex}`, and origin and
current storage as lists of `{key, value}` pairs; there is no separate
origin/current code pair and no deleted flag. -/
theorem c5_record_schema :
    ∀ (h : List Storage) (a : Nat) (r : LocalObject),
      (recordJson (encodeRecord h a r)).map Prod.fst
          = ["address", "code", "originAccount", "currentAccount",
             "originStorage", "currentStorage"]
      ∧ (encodeRecord h a r).address = addrHex a
      ∧ (encodeRecord h a r).code = bytes2Hex r.code
      ∧ (encodeRecord h a r).originAccount = accountStoreOf r.originAccount
      ∧ (encodeRecord h a r).currentAccount = accountStoreOf r.currentAccount
      ∧ accountJson (accountStoreOf r.originAccount)
          = [("nonce", JVal.n r.originAccount.nonce),
             ("balance", JVal.s (balanceString r.originAccount.balance)),
             ("codeHash", JVal.s (bytes2Hex r.originAccount.codeHash))]
      ∧ (encodeRecord h a r).originStorage
          = encodeStorageList (heapGet h r.originStorageId)
      ∧ (encodeRecord h a r).currentStorage
          = encodeStorageList (heapGet h r.currentStorageId) :=
  fun h a r => ⟨rfl, rfl, rfl, rfl, rfl, rfl, rfl, rfl⟩

/-- C8: `Submit` on a non-nil working set resets the working set to a fresh
empty map whatever the outcome of the store insert was, the resulting state
does not depend on that outcome, and a failed insert only produces a warning
log instead of an error. -/
theorem c8_submit_reset :
    ∀ (s : DiffState) (ins : Option Bool) (l : List (Nat × LocalObject)),
      s.localObject = some l →
      (submit s ins).1.localObject = some []
      ∧ (submit s ins).1 = (submit s (some true)).1
      ∧ (submit s (some false)).2 = ["cannot InsertTx"]
      ∧ (submit s none).2 = ["Ignore tx"] := by
  intro s ins l hl
  refine ⟨?_, ?_, ?_, ?_⟩ <;> simp [submit, hl]

/-- Witness for C8 on a concrete state with a failing store insert. -/
theorem c8_submit_reset_witness :
    (submit ⟨[], [], some []⟩ (some false)).1.localObject = some []
    ∧ (submit ⟨[], [], some []⟩ (some false)).2 = ["cannot InsertTx"] :=
  ⟨(c8_submit_reset ⟨[], [], some []⟩ (some false) [] rfl).1,
   (c8_submit_reset ⟨[], [], some []⟩ (some false) [] rfl).2.2.1⟩

/-- A base object whose committed storage is all zero and whose cache map
(heap index 0) is empty: no key was ever read or written. -/
def c1Obj : StateObject := ⟨⟨0, some 0, []⟩, [], false, 0, [], []⟩

/-- A tracker state holding `c1Obj` at address 0 with an empty working set. -/
def c1State : DiffState := initState [(0, c1Obj)] [[]]

/-- The record `SetState` creates for address 0 of `c1State`. -/
def c1Rec : LocalObject := newLocalObject c1Obj

/-- Counterexample to C1: `SetState(addr, key=1, value=2)` on a key never
before touched whose committed value is 0 leaves `originStorage[1] = 2`, the
value being written, not the pre-existing 0 the claim requires. -/
theorem c1_counterexample :
    getLocal (setState c1State 0 1 2) 0 = some c1Rec
    ∧ mapRead (heapGet (setState c1State 0 1 2).heap c1Rec.originStorageId) 1 = 2
    ∧ mapRead (heapGet (setState c1State 0 1 2).heap c1Rec.currentStorageId) 1 = 2
    ∧ ¬ (mapRead (heapGet (setState c1State 0 1 2).heap c1Rec.originStorageId) 1 = 0
         ∧ mapRead (heapGet (setState c1State 0 1 2).heap c1Rec.currentStorageId) 1 = 2) := by
  decide

/-- C1 (amended): on the first `SetState` touch of an address whose record's
aliased storage map does not hold the key, both `originStorage[key]` and
`currentStorage[key]` end up holding the value being written, not the value
that existed at that moment. -/
theorem c1_setState_first_touch :
    ∀ (s : DiffState) (a k v : Nat) (obj : StateObject),
      getStateObject s a = some obj →
      getLocal s a = none →
      alLookup (heapGet s.heap obj.storageId) k = none →
      obj.storageId < s.heap.length →
      getLocal (setState s a k v) a = some (newLocalObject obj)
      ∧ mapRead (heapGet (setState s a k v).heap
          (newLocalObject obj).originStorageId) k = v
      ∧ mapRead (heapGet (setState s a k v).heap
          (newLocalObject obj).currentStorageId) k = v := by
  intro s a k v obj hso hl hm hlen
  have hgon : getOrNewStateObject s a = (putLocal s a (newLocalObject obj), obj) := by
    simp [getOrNewStateObject, hso, ensureLocal, hl]
  have hids : (newLocalObject obj).originStorageId = obj.storageId := rfl
  have hids2 : (newLocalObject obj).currentStorageId = obj.storageId := rfl
  have hstep : setState s a k v
      = updObj
          { putLocal s a (newLocalObject obj) with
              heap := heapWrite (heapWrite s.heap obj.storageId k v) obj.storageId k v }
          a (fun o => { o with dirtyStorage := alSet o.dirtyStorage k v }) := by
    simp only [setState, hgon]
    rw [show getLocal (putLocal s a (newLocalObject obj)) a = some (newLocalObject obj)
      from getLocal_putLocal_self s a (newLocalObject obj)]
    simp only [hids, hids2, putLocal_heap, hm]
  rw [hstep]
  have hw1 : heapGet (heapWrite s.heap obj.storageId k v) obj.storageId
      = alSet (heapGet s.heap obj.storageId) k v := heapGet_heapWrite_self _ _ _ _ hlen
  have hlen2 : obj.storageId < (heapWrite s.heap obj.storageId k v).length := by
    rw [heapWrite_length]; exact hlen
  have hw2 : heapGet (heapWrite (heapWrite s.heap obj.storageId k v) obj.storageId k v)
        obj.storageId
      = alSet (alSet (heapGet s.heap obj.storageId) k v) k v := by
    rw [heapGet_heapWrite_self _ _ _ _ hlen2, hw1]
  refine ⟨?_, ?_, ?_⟩
  · rw [getLocal_updObj]
    show getLocal (putLocal s a (newLocalObject obj)) a = some (newLocalObject obj)
    exact getLocal_putLocal_self s a (newLocalObject obj)
  · rw [hids]
    simp only [updObj_heap]
    show mapRead (heapGet (heapWrite (heapWrite s.heap obj.storageId k v)
      obj.storageId k v) obj.storageId) k = v
    rw [hw2]
    simp [mapRead, alLookup_alSet]
  · rw [hids2]
    simp only [updObj_heap]
    show mapRead (heapGet (heapWrite (heapWrite s.heap obj.storageId k v)
      obj.storageId k v) obj.storageId) k = v
    rw [hw2]
    simp [mapRead, alLookup_alSet]

/-- Witness for C1's amended statement on a concrete untouched key. -/
theorem c1_setState_first_touch_witness :
    getLocal (setState ⟨[[]], [(3, ⟨⟨0, some 0, []⟩, [], false, 0, [], []⟩)], some []⟩ 3 5 7) 3
        = some (newLocalObject ⟨⟨0, some 0, []⟩, [], false, 0, [], []⟩)
    ∧ mapRead (heapGet (setState ⟨[[]], [(3, ⟨⟨0, some 0, []⟩, [], false, 0, [], []⟩)],
        some []⟩ 3 5 7).heap
        (newLocalObject ⟨⟨0, some 0, []⟩, [], false, 0, [], []⟩).originStorageId) 5 = 7 :=
  ⟨(c1_setState_first_touch ⟨[[]], [(3, ⟨⟨0, some 0, []⟩, [], false, 0, [], []⟩)], some []⟩
      3 5 7 ⟨⟨0, some 0, []⟩, [], false, 0, [], []⟩ rfl rfl rfl (by decide)).1,
   (c1_setState_first_touch ⟨[[]], [(3, ⟨⟨0, some 0, []⟩, [], false, 0, [], []⟩)], some []⟩
      3 5 7 ⟨⟨0, some 0, []⟩, [], false, 0, [], []⟩ rfl rfl rfl (by decide)).2.1⟩

/-- A base object for exercising repeated writes to one storage key. -/
def c2Obj : StateObject := ⟨⟨0, some 0, []⟩, [], false, 0, [], []⟩

/-- A tracker state holding `c2Obj` at address 0 with an empty working set. -/
def c2State : DiffState := initState [(0, c2Obj)] [[]]

/-- C2 fails on the code: after `SetState(0, key=5, v=1)` the record's
`originStorage[5]` is 1, but a second `SetState(0, key=5, v=2)` overwrites
it to 2 through the `currentStorage` alias, so the origin value is not fixed
at first observation. -/
theorem c2_origin_overwritten :
    getLocal (run c2State [Op.setState 0 5 1]) 0 = some (newLocalObject c2Obj)
    ∧ (newLocalObject c2Obj).originStorageId = 0
    ∧ mapRead (heapGet (run c2State [Op.setState 0 5 1]).heap 0) 5 = 1
    ∧ getLocal (run c2State [Op.setState 0 5 1, Op.setState 0 5 2]) 0
        = some (newLocalObject c2Obj)
    ∧ mapRead (heapGet (run c2State [Op.setState 0 5 1, Op.setState 0 5 2]).heap 0) 5
        = 2 := by
  decide

/-- An existing account (balance 30, nonempty code) with no diff record. -/
def c3Obj : StateObject := ⟨⟨0, some 30, []⟩, [7], false, 0, [], []⟩

/-- A tracker state holding `c3Obj` at address 0 with an empty working set. -/
def c3State : DiffState := initState [(0, c3Obj)] [[]]

/-- Counterexample to C3: `Suicide` on an existing account with no prior
diff record returns true but leaves the working set without any record for
the address — the record built inside `Suicide` is dropped, not stored. -/
theorem c3_counterexample :
    (suicide c3State 0).2 = true
    ∧ getStateObject c3State 0 = some c3Obj
    ∧ getLocal (suicide c3State 0).1 0 = none := by
  decide

/-- C3 (amended): `Suicide` on an existing account reports true, marks the
base object suicided with a zero balance and leaves the heap (hence every
record's storage maps) and every record's code untouched; a pre-existing
diff record gets its `currentAccount.Balance` zeroed with all other fields
unchanged, while with no pre-existing record the working set is left exactly
as it was — no record is inserted, and the record type carries no deleted
flag. -/
theorem c3_suicide_behavior :
    ∀ (s : DiffState) (a : Nat) (obj : StateObject),
      getStateObject s a = some obj →
      (suicide s a).2 = true
      ∧ getStateObject (suicide s a).1 a
          = some { obj with suicided := true, data := { obj.data with balance := some 0 } }
      ∧ (suicide s a).1.heap = s.heap
      ∧ (getLocal s a = none → (suicide s a).1.localObject = s.localObject)
      ∧ (∀ r, getLocal s a = some r →
          getLocal (suicide s a).1 a
            = some { r with currentAccount :=
                { r.currentAccount with balance := some 0 } }) := by
  intro s a obj hso
  have hupd := getStateObject_updObj_self s a
    (fun o => { o with suicided := true, data := { o.data with balance := some 0 } })
    obj hso
  cases hl : getLocal s a with
  | none =>
    have hl1 : getLocal (updObj s a
        (fun o => { o with suicided := true, data := { o.data with balance := some 0 } })) a
        = none := by rw [getLocal_updObj]; exact hl
    have hs : suicide s a = (updObj s a
        (fun o => { o with suicided := true, data := { o.data with balance := some 0 } }),
        true) := by
      simp only [suicide, hso]
      rw [hl1]
    rw [hs]
    exact ⟨rfl, hupd, by simp, fun _ => by simp, fun r hr => absurd hr (by simp)⟩
  | some r =>
    have hl1 : getLocal (updObj s a
        (fun o => { o with suicided := true, data := { o.data with balance := some 0 } })) a
        = some r := by rw [getLocal_updObj]; exact hl
    have hs : suicide s a = (putLocal (updObj s a
        (fun o => { o with suicided := true, data := { o.data with balance := some 0 } })) a
        { r with currentAccount := { r.currentAccount with balance := some 0 } },
        true) := by
      simp only [suicide, hso]
      rw [hl1]
    rw [hs]
    refine ⟨rfl, ?_, by simp, fun hn => absurd hn (by simp), fun r2 hr2 => ?_⟩
    · rw [getStateObject_putLocal]
      exact hupd
    · cases hr2
      exact getLocal_putLocal_self _ _ _

/-- An account used by the C3 witness. -/
def c3WitObj : StateObject := ⟨⟨2, some 30, []⟩, [7], false, 0, [], []⟩

/-- C3 witness state without a diff record. -/
def c3W1 : DiffState := ⟨[[]], [(0, c3WitObj)], some []⟩

/-- C3 witness state with a diff record already present. -/
def c3W2 : DiffState := ⟨[[]], [(1, c3WitObj)], some [(1, newLocalObject c3WitObj)]⟩

/-- Witness for C3's amended statement, covering both the absent-record and
present-record paths at concrete inputs. -/
theorem c3_suicide_behavior_witness :
    (suicide c3W1 0).2 = true
    ∧ (suicide c3W1 0).1.localObject = c3W1.localObject
    ∧ getLocal (suicide c3W2 1).1 1
        = some { newLocalObject c3WitObj with currentAccount :=
            { (newLocalObject c3WitObj).currentAccount with balance := some 0 } } :=
  ⟨(c3_suicide_behavior c3W1 0 c3WitObj rfl).1,
   (c3_suicide_behavior c3W1 0 c3WitObj rfl).2.2.2.1 rfl,
   (c3_suicide_behavior c3W2 1 c3WitObj rfl).2.2.2.2 (newLocalObject c3WitObj) rfl⟩

theorem addBalance_scenario :
    ∀ (s : DiffState) (a : Nat) (obj : StateObject),
      getStateObject s a = some obj →
      obj.data.balance = some 50 →
      (getBalanceOp (addBalance (prepareOp s) a 100) a).2 = some 150
      ∧ ∃ r, getLocal (addBalance (prepareOp s) a 100) a = some r
          ∧ balanceString r.originAccount.balance = "50"
          ∧ balanceString r.currentAccount.balance = "150" := by
  intro s a obj hso hb
  have hso0 : getStateObject (prepareOp s) a = some obj := hso
  have hgon : getOrNewStateObject (prepareOp s) a
      = (putLocal (prepareOp s) a (newLocalObject obj), obj) := by
    simp only [getOrNewStateObject]
    rw [hso0]
    simp [ensureLocal, getLocal, prepareOp, alLookup]
  have hstep : addBalance (prepareOp s) a 100
      = updObj (putLocal (putLocal (prepareOp s) a (newLocalObject obj)) a
          { newLocalObject obj with currentAccount :=
              { (newLocalObject obj).currentAccount with
                  balance := obj.data.balance.map (fun x => x + 100) } }) a
          (fun o => { o with data :=
              { o.data with balance := o.data.balance.map (fun x => x + 100) } }) := by
    simp only [addBalance, hgon]
    rw [getLocal_putLocal_self]
    simp [newLocalObject, hb]
  have hloc : getLocal (addBalance (prepareOp s) a 100) a
      = some { newLocalObject obj with currentAccount :=
          { (newLocalObject obj).currentAccount with
              balance := obj.data.balance.map (fun x => x + 100) } } := by
    rw [hstep, getLocal_updObj]
    exact getLocal_putLocal_self _ _ _
  have hso2 : getStateObject (putLocal (putLocal (prepareOp s) a (newLocalObject obj)) a
      { newLocalObject obj with currentAccount :=
          { (newLocalObject obj).currentAccount with
              balance := obj.data.balance.map (fun x => x + 100) } }) a = some obj := hso
  have hupd := getStateObject_updObj_self _ a
    (fun o => { o with data :=
        { o.data with balance := o.data.balance.map (fun x => x + 100) } }) obj hso2
  constructor
  · rw [hstep]
    simp only [getBalanceOp]
    rw [hupd]
    simp [hb]
  · refine ⟨_, hloc, ?_, ?_⟩
    · show balanceString (newLocalObject obj).originAccount.balance = "50"
      simp only [newLocalObject]
      rw [hb]
      decide
    · show balanceString (obj.data.balance.map (fun x => x + 100)) = "150"
      rw [hb]
      show balanceString (some 150) = "150"
      decide

theorem addBalance_backfill :
    ∀ (s : DiffState) (a : Nat) (amt b : Int) (obj : StateObject) (r : LocalObject),
      getStateObject s a = some obj →
      obj.data.balance = some b →
      getLocal s a = some r →
      r.originAccount.balance = none →
      getLocal (addBalance s a amt) a
        = some { r with
            originAccount := { r.originAccount with balance := some b },
            currentAccount := { r.currentAccount with balance := some (b + amt) } } := by
  intro s a amt b obj r hso hb hl hnone
  have hgon : getOrNewStateObject s a = (s, obj) := by
    simp only [getOrNewStateObject]
    rw [hso]
    simp [ensureLocal, hl]
  have hstep : addBalance s a amt
      = updObj (putLocal s a
          { r with
              originAccount := { r.originAccount with balance := some b },
              currentAccount := { r.currentAccount with balance := some (b + amt) } }) a
          (fun o => { o with data :=
              { o.data with balance := o.data.balance.map (fun x => x + amt) } }) := by
    simp only [addBalance, hgon]
    rw [hl]
    simp [hnone, hb]
  rw [hstep, getLocal_updObj]
  exact getLocal_putLocal_self _ _ _

/-- C4: after `Prepare`, `AddBalance(a, 100)` on an account of balance 50
makes `GetBalance` return 150, with the diff record's origin balance
serializing to "50" and its current balance to "150"; and in general a
balance mutation on a record whose origin balance is still unset back-fills
the origin with the pre-mutation balance before computing the current
value. -/
theorem c4_addBalance_tracking :
    (∀ (s : DiffState) (a : Nat) (obj : StateObject),
      getStateObject s a = some obj →
      obj.data.balance = some 50 →
      (getBalanceOp (addBalance (prepareOp s) a 100) a).2 = some 150
      ∧ ∃ r, getLocal (addBalance (prepareOp s) a 100) a = some r
          ∧ balanceString r.originAccount.balance = "50"
          ∧ balanceString r.currentAccount.balance = "150")
    ∧ (∀ (s : DiffState) (a : Nat) (amt b : Int) (obj : StateObject) (r : LocalObject),
      getStateObject s a = some obj →
      obj.data.balance = some b →
      getLocal s a = some r →
      r.originAccount.balance = none →
      ∃ r2, getLocal (addBalance s a amt) a = some r2
          ∧ r2.originAccount.balance = some b
          ∧ r2.currentAccount.balance = some (b + amt)) :=
  ⟨addBalance_scenario,
   fun s a amt b obj r hso hb hl hnone =>
     ⟨_, addBalance_backfill s a amt b obj r hso hb hl hnone, rfl, rfl⟩⟩

/-- The pre-state of the C4 witness scenario: balance 50 at address 7. -/
def c4W1 : DiffState := ⟨[[]], [(7, ⟨⟨0, some 50, []⟩, [], false, 0, [], []⟩)], some []⟩

/-- The pre-state of the C4 back-fill witness: a record whose origin balance
is unset over a base balance of 20. -/
def c4W2 : DiffState :=
  ⟨[[]], [(3, ⟨⟨0, some 20, []⟩, [], false, 0, [], []⟩)],
   some [(3, ⟨[], ⟨0, none, []⟩, ⟨0, none, []⟩, 0, 0⟩)]⟩

/-- Witness for C4 at concrete inputs for both the scenario and the
back-fill statement. -/
theorem c4_addBalance_tracking_witness :
    ((getBalanceOp (addBalance (prepareOp c4W1) 7 100) 7).2 = some 150
      ∧ ∃ r, getLocal (addBalance (prepareOp c4W1) 7 100) 7 = some r
          ∧ balanceString r.originAccount.balance = "50"
          ∧ balanceString r.currentAccount.balance = "150")
    ∧ ∃ r2, getLocal (addBalance c4W2 3 5) 3 = some r2
        ∧ r2.originAccount.balance = some 20
        ∧ r2.currentAccount.balance = some 25 :=
  ⟨c4_addBalance_tracking.1 c4W1 7 ⟨⟨0, some 50, []⟩, [], false, 0, [], []⟩ rfl rfl,
   by
     have := c4_addBalance_tracking.2 c4W2 3 5 20
       ⟨⟨0, some 20, []⟩, [], false, 0, [], []⟩
       ⟨[], ⟨0, none, []⟩, ⟨0, none, []⟩, 0, 0⟩ rfl rfl rfl rfl
     simpa using this⟩

/-- The aliasing invariant: every record of the working set references one
single storage map through both of its storage fields. -/
def storAligned (s : DiffState) : Prop :=
  ∀ a r, alLookup (s.localObject.getD []) a = some r →
    r.originStorageId = r.currentStorageId

theorem storAligned_updObj (s : DiffState) (a : Nat) (f : StateObject → StateObject)
    (h : storAligned s) : storAligned (updObj s a f) := by
  intro b r hb
  apply h b r
  rwa [updObj_localObject] at hb

theorem storAligned_reset (s : DiffState) :
    storAligned { s with localObject := some [] } := by
  intro b r hb
  exact absurd hb (by simp [alLookup])

theorem storAligned_putLocal (s : DiffState) (a : Nat) (r : LocalObject)
    (h : storAligned s) (hr : r.originStorageId = r.currentStorageId) :
    storAligned (putLocal s a r) := by
  intro b r2 hb
  simp only [putLocal, Option.getD_some] at hb
  rw [alLookup_alSet] at hb
  by_cases hab : a = b
  · rw [if_pos hab] at hb
    cases hb
    exact hr
  · rw [if_neg hab] at hb
    exact h b r2 hb

theorem storAligned_ensureLocal (s : DiffState) (a : Nat) (obj : StateObject)
    (h : storAligned s) : storAligned (ensureLocal s a obj) := by
  unfold ensureLocal
  cases getLocal s a with
  | some _ => exact h
  | none => exact storAligned_putLocal s a (newLocalObject obj) h rfl

theorem storAligned_getOrNew (s : DiffState) (a : Nat) (h : storAligned s) :
    storAligned (getOrNewStateObject s a).1 := by
  unfold getOrNewStateObject
  cases getStateObject s a with
  | some obj => exact storAligned_ensureLocal s a obj h
  | none => exact storAligned_ensureLocal _ a _ h

theorem storAligned_step (s : DiffState) (op : Op) (h : storAligned s) :
    storAligned (step s op) := by
  cases op with
  | exist a =>
    dsimp only [step, existOp]
    cases getStateObject s a with
    | some obj => exact storAligned_ensureLocal s a obj h
    | none => exact h
  | empty a =>
    dsimp only [step, emptyOp]
    cases getStateObject s a with
    | some obj => exact storAligned_ensureLocal s a obj h
    | none => exact h
  | createAccount a =>
    dsimp only [step, createAccount]
    cases (createObject s a).2.2 with
    | some p => exact storAligned_putLocal _ a _ h rfl
    | none => exact storAligned_putLocal _ a _ h rfl
  | subBalance a amt =>
    dsimp only [step, subBalance]
    have h1 := storAligned_getOrNew s a h
    cases hl : getLocal (getOrNewStateObject s a).1 a with
    | none =>
      exact storAligned_updObj _ a _ (storAligned_putLocal _ a _ h1 rfl)
    | some r =>
      refine storAligned_updObj _ a _ (storAligned_putLocal _ a _ h1 ?_)
      have hr := h1 a r hl
      by_cases hc : r.originAccount.balance = none <;> simp [hc] <;> exact hr
  | addBalance a amt =>
    dsimp only [step, addBalance]
    have h1 := storAligned_getOrNew s a h
    cases hl : getLocal (getOrNewStateObject s a).1 a with
    | none =>
      exact storAligned_updObj _ a _ (storAligned_putLocal _ a _ h1 rfl)
    | some r =>
      refine storAligned_updObj _ a _ (storAligned_putLocal _ a _ h1 ?_)
      have hr := h1 a r hl
      by_cases hc : r.originAccount.balance = none <;> simp [hc] <;> exact hr
  | getBalance a =>
    dsimp only [step, getBalanceOp]
    cases getStateObject s a with
    | some obj => exact storAligned_ensureLocal s a obj h
    | none => exact h
  | getNonce a =>
    dsimp only [step, getNonceOp]
    cases getStateObject s a with
    | some obj => exact storAligned_ensureLocal s a obj h
    | none => exact h
  | setNonce a n =>
    dsimp only [step, setNonce]
    have h1 := storAligned_getOrNew s a h
    cases hl : getLocal (getOrNewStateObject s a).1 a with
    | none => exact storAligned_updObj _ a _ (storAligned_putLocal _ a _ h1 rfl)
    | some r =>
      exact storAligned_updObj _ a _ (storAligned_putLocal _ a _ h1 (h1 a r hl))
  | getCodeHash a =>
    dsimp only [step, getCodeHashOp]
    cases getStateObject s a with
    | some obj => exact storAligned_ensureLocal s a obj h
    | none => exact h
  | getCode a =>
    dsimp only [step, getCodeOp]
    cases getStateObject s a with
    | some obj =>
      cases hl : getLocal s a with
      | none => exact storAligned_putLocal s a _ h rfl
      | some r => exact storAligned_putLocal s a _ h (h a r hl)
    | none => exact h
  | setCode a c =>
    dsimp only [step, setCode]
    have h1 := storAligned_getOrNew s a h
    cases hl : getLocal (getOrNewStateObject s a).1 a with
    | none => exact storAligned_updObj _ a _ (storAligned_putLocal _ a _ h1 rfl)
    | some r =>
      exact storAligned_updObj _ a _ (storAligned_putLocal _ a _ h1 (h1 a r hl))
  | getCodeSize a =>
    dsimp only [step, getCodeSizeOp]
    cases getStateObject s a with
    | some obj => exact storAligned_ensureLocal s a obj h
    | none => exact h
  | getCommittedState a k =>
    dsimp only [step, getCommittedStateOp]
    cases getStateObject s a with
    | some obj => exact storAligned_ensureLocal s a obj h
    | none => exact h
  | getState a k =>
    dsimp only [step, getStateOp]
    cases getStateObject s a with
    | some obj => exact storAligned_ensureLocal s a obj h
    | none => exact h
  | storageTrie a =>
    dsimp only [step, storageTrieOp]
    cases getStateObject s a with
    | some obj => exact storAligned_ensureLocal s a obj h
    | none => exact h
  | setState a k v =>
    dsimp only [step, setState]
    have h1 := storAligned_getOrNew s a h
    split
    · split
      · exact storAligned_updObj _ a _ (storAligned_putLocal _ a _ h1 rfl)
      · exact storAligned_updObj _ a _ (storAligned_putLocal _ a _ h1 rfl)
    · rename_i r hl
      split
      · exact storAligned_updObj _ a _ h1
      · exact storAligned_updObj _ a _ h1
  | suicide a =>
    dsimp only [step, suicide]
    split
    · exact h
    · split
      · exact storAligned_updObj s a _ h
      · rename_i r hl
        refine storAligned_putLocal _ a _ (storAligned_updObj s a _ h) ?_
        rw [getLocal_updObj] at hl
        exact h a r hl
  | prepare =>
    exact storAligned_reset s
  | submit ins =>
    dsimp only [step, submit]
    cases s.localObject with
    | none => exact h
    | some l => exact storAligned_reset s

theorem storAligned_run (ops : List Op) :
    ∀ s, storAligned s → storAligned (run s ops) := by
  induction ops with
  | nil => intro s h; exact h
  | cons op rest ih => intro s h; exact ih _ (storAligned_step s op h)

/-- C9: every record created by `newLocalObject` references one map through
both storage fields, and after any sequence of tracker calls from a fresh
tracker every working-set record still does, so its origin and current
storage maps hold identical key-value pairs and the serialized record's
origin and current storage lists are equal. -/
theorem c9_storage_alias :
    (∀ obj : StateObject,
      (newLocalObject obj).originStorageId = (newLocalObject obj).currentStorageId)
    ∧ ∀ (objs : List (Nat × StateObject)) (hp : List Storage) (ops : List Op)
        (a : Nat) (r : LocalObject),
        getLocal (run (initState objs hp) ops) a = some r →
        r.originStorageId = r.currentStorageId
        ∧ heapGet (run (initState objs hp) ops).heap r.originStorageId
            = heapGet (run (initState objs hp) ops).heap r.currentStorageId
        ∧ (encodeRecord (run (initState objs hp) ops).heap a r).originStorage
            = (encodeRecord (run (initState objs hp) ops).heap a r).currentStorage := by
  refine ⟨fun obj => rfl, ?_⟩
  intro objs hp ops a r hr
  have hinit : storAligned (initState objs hp) :=
    storAligned_reset ⟨hp, objs, some []⟩
  have hal := storAligned_run ops (initState objs hp) hinit a r hr
  refine ⟨hal, by rw [hal], ?_⟩
  show encodeStorageList (heapGet (run (initState objs hp) ops).heap r.originStorageId)
      = encodeStorageList (heapGet (run (initState objs hp) ops).heap r.currentStorageId)
  rw [hal]

/-- A base object for the C9 witness run. -/
def c9Obj : StateObject := ⟨⟨0, some 0, []⟩, [], false, 0, [], []⟩

/-- Witness for C9: a concrete run producing a record, to which the
invariant applies. -/
theorem c9_storage_alias_witness :
    getLocal (run (initState [(0, c9Obj)] [[]]) [Op.setState 0 1 2]) 0
        = some (newLocalObject c9Obj)
    ∧ (newLocalObject c9Obj).originStorageId
        = (newLocalObject c9Obj).currentStorageId :=
  ⟨by decide,
   (c9_storage_alias.2 [(0, c9Obj)] [[]] [Op.setState 0 1 2] 0
      (newLocalObject c9Obj) (by decide)).1⟩
